import Mathlib

/-!
Shallow embedding of `src/materials/fuzzing/aflpp/main_stdin_persist_no_shared.c`.

The program is a persistent-mode fuzzing harness: `main` loops (via
`__AFL_LOOP(1000)`) clearing a 100-byte stack buffer with `memset`, reading up
to 100 bytes from standard input with `read(0, input_buf, 100)`, and calling
`check_buf(input_buf, len)`, which calls `abort()` exactly when the first
three bytes are 'a', 'b', 'c' (gated on the length).

Modelling choices:
* bytes are `Nat` values; a buffer is a `List Nat`;
* `size_t` is a 64-bit unsigned integer, so the value `-1` returned by a
  failing `read` and stored into the `size_t` variable `len` becomes
  `2 ^ 64 - 1`;
* `check_buf` returns `some true` when it reaches `abort()`, `some false`
  when it returns normally, and `none` when a buffer access would be out of
  bounds (the guarded-indexing error branch, unreachable in the program);
* the input stream is a list of per-iteration `read` outcomes; once the list
  is exhausted, `read` keeps returning 0 bytes (end of file).
-/

/-- `#define MAX_BUF_SIZE 100` from the C source. -/
def MAX_BUF_SIZE : Nat := 100

/-- The value `(size_t)(-1)` obtained when the `-1` returned by a failing
`read` is stored into the `size_t` variable `len`. -/
def SIZE_MAX_VAL : Nat := 2 ^ 64 - 1

/-- Byte value of the character literal 'a'. -/
def charA : Nat := 97

/-- Byte value of the character literal 'b'. -/
def charB : Nat := 98

/-- Byte value of the character literal 'c'. -/
def charC : Nat := 99

/-- `check_buf` from the C source, branch for branch, with the `&&`
short-circuit order preserved: an index is consulted only after the length
guard for it has passed.  `some true` models reaching `abort()`, `some false`
a normal return, `none` an out-of-bounds buffer access. -/
def check_buf (buf : List Nat) (buf_len : Nat) : Option Bool :=
  if buf_len > 0 then
    match buf[0]? with
    | none => none
    | some b0 =>
      if b0 = charA then
        if buf_len > 1 then
          match buf[1]? with
          | none => none
          | some b1 =>
            if b1 = charB then
              if buf_len > 2 then
                match buf[2]? with
                | none => none
                | some b2 =>
                  if b2 = charC then some true else some false
              else some false
            else some false
        else some false
      else some false
  else some false

/-- Statement-level rendering of `check_buf` that threads the mutable state
(the buffer) through every branch of the body, so that mutation of the buffer
by the function would be visible in the first component of the result.  The C
body contains no assignment, so every leaf returns the buffer it received. -/
def check_buf_run (buf : List Nat) (buf_len : Nat) : List Nat × Option Bool :=
  if buf_len > 0 then
    match buf[0]? with
    | none => (buf, none)
    | some b0 =>
      if b0 = charA then
        if buf_len > 1 then
          match buf[1]? with
          | none => (buf, none)
          | some b1 =>
            if b1 = charB then
              if buf_len > 2 then
                match buf[2]? with
                | none => (buf, none)
                | some b2 =>
                  if b2 = charC then (buf, some true) else (buf, some false)
              else (buf, some false)
            else (buf, some false)
        else (buf, some false)
      else (buf, some false)
  else (buf, some false)

/-- The abort condition in the words of the specification: the length is at
least 3 and the first three bytes are 'a', 'b', 'c'. -/
def spec_abort (buf : List Nat) (buf_len : Nat) : Bool :=
  decide (3 ≤ buf_len) && (buf[0]? == some charA) &&
    (buf[1]? == some charB) && (buf[2]? == some charC)

/-- One `read(0, input_buf, 100)` outcome as the loop sees it: either a
failure (`read` returns -1) or a chunk of bytes actually delivered. -/
inductive ReadResult where
  | fail : ReadResult
  | chunk : List Nat → ReadResult
deriving DecidableEq

/-- POSIX contract of `read(0, buf, 100)`: at most 100 bytes are delivered. -/
def validRead : ReadResult → Bool
  | .fail => true
  | .chunk bs => decide (bs.length ≤ MAX_BUF_SIZE)

/-- Number of bytes a `read` outcome stores into the buffer (a failing
`read` stores none). -/
def bytesStored : ReadResult → Nat
  | .fail => 0
  | .chunk bs => bs.length

/-- The received bytes of one `read` start with the three-byte prefix
'a', 'b', 'c'. -/
def startsAbc : ReadResult → Bool
  | .fail => false
  | .chunk bs =>
      (bs[0]? == some charA) && (bs[1]? == some charB) && (bs[2]? == some charC)

/-- `memset(buf, c, n)`: the first `n` bytes set to `c`, the rest unchanged. -/
def memset (buf : List Nat) (c : Nat) (n : Nat) : List Nat :=
  List.replicate n c ++ buf.drop n

/-- Effect of one `read` on the buffer: a delivered chunk overwrites the
front of the buffer, the tail beyond it is untouched; a failing `read`
leaves the buffer alone.  Returns the new buffer and the value stored into
the `size_t` variable `len`. -/
def doRead (buf : List Nat) : ReadResult → List Nat × Nat
  | .fail => (buf, SIZE_MAX_VAL)
  | .chunk bs => (bs ++ buf.drop bs.length, bs.length)

/-- The body of the `while (__AFL_LOOP(1000))` loop:
`memset(input_buf, 0, MAX_BUF_SIZE)`, then `read`, then `check_buf`.
Returns the buffer after the iteration and the `check_buf` outcome. -/
def loopBody (buf : List Nat) (r : ReadResult) : List Nat × Option Bool :=
  let cleared := memset buf 0 MAX_BUF_SIZE
  let afterRead := doRead cleared r
  (afterRead.1, check_buf afterRead.1 afterRead.2)

/-- Outcome of a whole run of `main`: normal exit with a status code,
abnormal termination through `abort()`, or an out-of-bounds access. -/
inductive RunResult where
  | exited : Nat → RunResult
  | aborted : RunResult
  | oob : RunResult
deriving DecidableEq

/-- Pop the next `read` outcome from the stream; at end of stream `read`
returns 0 bytes forever (end of file). -/
def nextRead : List ReadResult → ReadResult × List ReadResult
  | [] => (.chunk [], [])
  | r :: rs => (r, rs)

/-- The persistent-mode loop: at most `fuel` iterations, threading the reused
buffer from one iteration to the next; returns the run outcome and the number
of loop iterations executed. -/
def mainLoop : Nat → List ReadResult → List Nat → RunResult × Nat
  | 0, _, _ => (.exited 0, 0)
  | n + 1, input, buf =>
    let r := (nextRead input).1
    let rest := (nextRead input).2
    let buf2 := (loopBody buf r).1
    match (loopBody buf r).2 with
    | none => (.oob, 1)
    | some true => (.aborted, 1)
    | some false =>
      ((mainLoop n rest buf2).1, (mainLoop n rest buf2).2 + 1)

/-- `main` from the C source: the uninitialized stack buffer `input_buf` is
an arbitrary initial buffer; the loop bound of `__AFL_LOOP(1000)` is 1000;
after the loop, `return 0`. -/
def mainRun (initBuf : List Nat) (input : List ReadResult) : RunResult :=
  (mainLoop 1000 input initBuf).1

/-- Number of loop iterations a run of `main` executes. -/
def mainIters (initBuf : List Nat) (input : List ReadResult) : Nat :=
  (mainLoop 1000 input initBuf).2

example : check_buf [97, 98, 99] 3 = some true := by decide
example : check_buf [97, 98, 120] 3 = some false := by decide
example : check_buf [97, 98] 2 = some false := by decide
example : check_buf [] 0 = some false := by decide
example : check_buf [0, 0, 0] SIZE_MAX_VAL = some false := by
  simp [check_buf, SIZE_MAX_VAL, charA]

/-! ### Core lemmas about `check_buf` -/

/-- On any buffer holding at least three bytes, `check_buf` computes exactly
the specification's abort predicate and never reaches the out-of-bounds
branch. -/
lemma check_buf_eq_spec_core (buf : List Nat) (len : Nat) (h : 3 ≤ buf.length) :
    check_buf buf len = some (spec_abort buf len) := by
  rcases buf with _ | ⟨x, _ | ⟨y, _ | ⟨z, rest⟩⟩⟩
  · simp at h
  · simp at h
  · simp at h
  · rcases len with _ | _ | _ | n
    · simp [check_buf, spec_abort]
    · by_cases h0 : x = charA <;> simp [check_buf, spec_abort, h0]
    · by_cases h0 : x = charA <;> by_cases h1 : y = charB <;>
        simp [check_buf, spec_abort, h0, h1]
    · have g0 : n + 3 > 0 := by omega
      have g1 : n + 3 > 1 := by omega
      have g2 : n + 3 > 2 := by omega
      have g3 : 3 ≤ n + 3 := by omega
      by_cases h0 : x = charA <;> by_cases h1 : y = charB <;>
        by_cases h2 : z = charC <;>
        simp [check_buf, spec_abort, h0, h1, h2, g0, g1, g2, g3]

/-- The outcome of `check_buf` depends only on the indices the length guards
let it consult: buffers that agree below `min len 3` give the same outcome. -/
lemma check_buf_eq_of_agree (b1 b2 : List Nat) (len : Nat)
    (h : ∀ i, i < min len 3 → b1[i]? = b2[i]?) :
    check_buf b1 len = check_buf b2 len := by
  rcases len with _ | _ | _ | n
  · simp [check_buf]
  · have e0 := h 0 (by omega)
    simp [check_buf, e0]
  · have e0 := h 0 (by omega)
    have e1 := h 1 (by omega)
    simp [check_buf, e0, e1]
  · have e0 := h 0 (by omega)
    have e1 := h 1 (by omega)
    have e2 := h 2 (by omega)
    have g0 : n + 3 > 0 := by omega
    have g1 : n + 3 > 1 := by omega
    have g2 : n + 3 > 2 := by omega
    simp [check_buf, e0, e1, e2, g0, g1, g2]

/-! ### Claims about `check_buf` -/

/-- C1: `check_buf(buf, buf_len)` aborts if and only if `buf_len` is at least
3 and the first three bytes are 'a', 'b', 'c'; on every other content and
length it returns normally (the specification predicate `spec_abort` is
exactly the abort condition). -/
theorem check_buf_abort_iff (buf : List Nat) (len : Nat) (h : 3 ≤ buf.length) :
    (check_buf buf len = some true ↔ spec_abort buf len = true) ∧
    (check_buf buf len = some false ↔ spec_abort buf len = false) := by
  rw [check_buf_eq_spec_core buf len h]
  cases spec_abort buf len <;> simp

/-- Witness for C1: the theorem applied to the buffer "abc" at length 3. -/
theorem check_buf_abort_iff_witness :
    (check_buf [97, 98, 99] 3 = some true ↔ spec_abort [97, 98, 99] 3 = true) ∧
    (check_buf [97, 98, 99] 3 = some false ↔ spec_abort [97, 98, 99] 3 = false) :=
  check_buf_abort_iff [97, 98, 99] 3 (by decide)

/-- A length of at most 2 never reaches the abort: the third guard cannot
pass. -/
lemma check_buf_short_core (buf : List Nat) (len : Nat)
    (hlen : len ≤ 2) (hbuf : len ≤ buf.length) :
    check_buf buf len = some false := by
  rcases len with _ | _ | _ | n
  · simp [check_buf]
  · rcases buf with _ | ⟨x, t⟩
    · simp at hbuf
    · by_cases h0 : x = charA <;> simp [check_buf, h0]
  · rcases buf with _ | ⟨x, _ | ⟨y, t⟩⟩
    · simp at hbuf
    · simp at hbuf
    · by_cases h0 : x = charA <;> by_cases h1 : y = charB <;>
        simp [check_buf, h0, h1]
  · omega

/-- C2: for `buf_len` equal to 0, 1 or 2 (with at least `buf_len` bytes in the
buffer), `check_buf` returns normally whatever the contents are. -/
theorem check_buf_short_no_abort (buf : List Nat) (len : Nat)
    (hlen : len ≤ 2) (hbuf : len ≤ buf.length) :
    check_buf buf len = some false :=
  check_buf_short_core buf len hlen hbuf

/-- Witness for C2: the buffer "ab" at length 2 returns normally. -/
theorem check_buf_short_no_abort_witness : check_buf [97, 98] 2 = some false :=
  check_buf_short_no_abort [97, 98] 2 (by decide) (by decide)

/-- C7: `check_buf` has no effect beyond the abort decision: the
statement-level rendering that threads the buffer through the body returns
the buffer unchanged, with the same outcome as `check_buf`. -/
theorem check_buf_no_side_effect (buf : List Nat) (len : Nat) :
    (check_buf_run buf len).1 = buf ∧ (check_buf_run buf len).2 = check_buf buf len := by
  unfold check_buf_run check_buf
  refine ⟨?_, ?_⟩ <;> (repeat' split) <;> rfl

/-- C9: `check_buf` consults no index beyond 2 — its outcome is unchanged
when the buffer is truncated to its first three bytes — and on a buffer of at
least three bytes (such as the 100-byte `input_buf`) the guarded indexing
never reaches its out-of-bounds branch, for every length, including
`(size_t)(-1)` from a failed `read`. -/
theorem check_buf_accesses_in_bounds (buf : List Nat) (len : Nat) :
    check_buf buf len = check_buf (buf.take 3) len ∧
    (3 ≤ buf.length → check_buf buf len ≠ none) := by
  constructor
  · refine check_buf_eq_of_agree buf (buf.take 3) len (fun i hi => ?_)
    rw [List.getElem?_take, if_pos (by omega)]
  · intro h3
    rw [check_buf_eq_spec_core buf len h3]
    simp

/-- Witness for C9: a zero-filled 100-byte buffer with the length
`(size_t)(-1)` stored by a failed `read`. -/
theorem check_buf_accesses_in_bounds_witness :
    check_buf (List.replicate 100 0) SIZE_MAX_VAL =
      check_buf ((List.replicate 100 0).take 3) SIZE_MAX_VAL ∧
    check_buf (List.replicate 100 0) SIZE_MAX_VAL ≠ none :=
  ⟨(check_buf_accesses_in_bounds (List.replicate 100 0) SIZE_MAX_VAL).1,
   (check_buf_accesses_in_bounds (List.replicate 100 0) SIZE_MAX_VAL).2 (by simp)⟩

/-- C10: the abort decision depends only on the length and the first
`min len 3` bytes: two buffers that agree on indices below `min len 3` give
the same outcome at the same length. -/
theorem check_buf_prefix_noninterference (b1 b2 : List Nat) (len : Nat)
    (h : ∀ i, i < min len 3 → b1[i]? = b2[i]?) :
    check_buf b1 len = check_buf b2 len :=
  check_buf_eq_of_agree b1 b2 len h

/-- Witness for C10: at length 2 the buffers need only agree on their first
two bytes; the third byte may differ without changing the outcome. -/
theorem check_buf_prefix_noninterference_witness :
    check_buf [97, 98, 99] 2 = check_buf [97, 98, 0] 2 :=
  check_buf_prefix_noninterference [97, 98, 99] [97, 98, 0] 2 (by decide)

/-! ### Lemmas about the loop -/

/-- `memset(buf, c, n)` on a buffer of at most `n` bytes replaces the whole
buffer. -/
lemma memset_all (buf : List Nat) (c n : Nat) (h : buf.length ≤ n) :
    memset buf c n = List.replicate n c := by
  simp [memset, List.drop_eq_nil_of_le h]

/-- The first byte of a freshly cleared buffer is 0. -/
lemma memset_getElem0 (buf : List Nat) : (memset buf 0 MAX_BUF_SIZE)[0]? = some 0 := by
  unfold memset
  rw [List.getElem?_append_left (by simp [MAX_BUF_SIZE])]
  simp [MAX_BUF_SIZE]

/-- `check_buf` on a freshly cleared buffer returns normally whatever the
length argument is (the first byte is 0, not 'a'). -/
lemma check_buf_memset_zero (buf : List Nat) (len : Nat) :
    check_buf (memset buf 0 MAX_BUF_SIZE) len = some false := by
  by_cases h : len > 0 <;> simp [check_buf, memset_getElem0, charA, h]

/-- An iteration whose `read` outcome does not start with "abc" ends with a
normal return from `check_buf`. -/
lemma loopBody_no_abc_snd (buf : List Nat) (r : ReadResult)
    (hn : startsAbc r = false) :
    (loopBody buf r).2 = some false := by
  cases r with
  | fail =>
      show check_buf (memset buf 0 MAX_BUF_SIZE) SIZE_MAX_VAL = some false
      exact check_buf_memset_zero buf SIZE_MAX_VAL
  | chunk bs =>
      show check_buf (bs ++ (memset buf 0 MAX_BUF_SIZE).drop bs.length)
        bs.length = some false
      generalize (memset buf 0 MAX_BUF_SIZE).drop bs.length = t
      by_cases hlen : bs.length ≤ 2
      · exact check_buf_short_core _ _ hlen (by simp)
      · have h3 : 3 ≤ bs.length := by omega
        have e0 : (bs ++ t)[0]? = bs[0]? := List.getElem?_append_left (by omega)
        have e1 : (bs ++ t)[1]? = bs[1]? := List.getElem?_append_left (by omega)
        have e2 : (bs ++ t)[2]? = bs[2]? := List.getElem?_append_left (by omega)
        rw [check_buf_eq_spec_core _ _ (by simp; omega)]
        simp only [spec_abort, e0, e1, e2, decide_eq_true h3, Bool.true_and,
          Option.some.injEq]
        simpa [startsAbc] using hn

/-- A valid iteration keeps the buffer at its declared 100-byte size. -/
lemma loopBody_fst_length (buf : List Nat) (r : ReadResult)
    (hb : buf.length = MAX_BUF_SIZE) (hv : validRead r = true) :
    (loopBody buf r).1.length = MAX_BUF_SIZE := by
  cases r with
  | fail =>
      show (memset buf 0 MAX_BUF_SIZE).length = MAX_BUF_SIZE
      simp [memset, MAX_BUF_SIZE] at hb ⊢
      omega
  | chunk bs =>
      simp only [validRead, decide_eq_true_eq] at hv
      show (bs ++ (memset buf 0 MAX_BUF_SIZE).drop bs.length).length = MAX_BUF_SIZE
      simp [memset, MAX_BUF_SIZE] at hb hv ⊢
      omega

/-- Over a stream with no "abc" prefix in any read, the loop always runs to
its normal end. -/
lemma mainLoop_no_abc (fuel : Nat) :
    ∀ (input : List ReadResult) (buf : List Nat), buf.length = MAX_BUF_SIZE →
      (∀ r ∈ input, validRead r = true) → (∀ r ∈ input, startsAbc r = false) →
      (mainLoop fuel input buf).1 = RunResult.exited 0 := by
  induction fuel with
  | zero => intro input buf _ _ _; rfl
  | succ n ih =>
      intro input buf hb hv hn
      rcases input with _ | ⟨r, rs⟩
      · have hs : (loopBody buf (.chunk [])).2 = some false :=
          loopBody_no_abc_snd buf (.chunk []) (by simp [startsAbc])
        have hl : (loopBody buf (.chunk [])).1.length = MAX_BUF_SIZE :=
          loopBody_fst_length buf (.chunk []) hb (by simp [validRead, MAX_BUF_SIZE])
        simp only [mainLoop, nextRead, hs]
        exact ih [] _ hl (by simp) (by simp)
      · have hs : (loopBody buf r).2 = some false :=
          loopBody_no_abc_snd buf r (hn r (by simp))
        have hl : (loopBody buf r).1.length = MAX_BUF_SIZE :=
          loopBody_fst_length buf r hb (hv r (by simp))
        simp only [mainLoop, nextRead, hs]
        exact ih rs _ hl (fun x hx => hv x (by simp [hx])) (fun x hx => hn x (by simp [hx]))

/-- The loop executes at most `fuel` iterations. -/
lemma mainLoop_iters_le (fuel : Nat) :
    ∀ (input : List ReadResult) (buf : List Nat), (mainLoop fuel input buf).2 ≤ fuel := by
  induction fuel with
  | zero => intro input buf; simp [mainLoop]
  | succ n ih =>
      intro input buf
      simp only [mainLoop]
      cases h : (loopBody buf (nextRead input).1).2 with
      | none => simp
      | some b =>
          cases b with
          | true => simp
          | false => exact Nat.succ_le_succ (ih _ _)

/-- With standard input already at end of file, every iteration reads 0 bytes
and the loop runs to its normal end. -/
lemma mainLoop_nil_exits (fuel : Nat) :
    ∀ buf : List Nat, (mainLoop fuel [] buf).1 = RunResult.exited 0 := by
  induction fuel with
  | zero => intro buf; rfl
  | succ n ih =>
      intro buf
      have hs : (loopBody buf (.chunk [])).2 = some false :=
        loopBody_no_abc_snd buf (.chunk []) (by simp [startsAbc])
      simp only [mainLoop, nextRead, hs]
      exact ih _

/-! ### Claims about `main` -/

/-- C3: for every input stream in which no iteration's received bytes start
with 'a','b','c', `main` runs to completion and exits normally with status
0. -/
theorem main_no_abc_exits_normally (initBuf : List Nat) (input : List ReadResult)
    (hb : initBuf.length = MAX_BUF_SIZE)
    (hv : ∀ r ∈ input, validRead r = true)
    (hn : ∀ r ∈ input, startsAbc r = false) :
    mainRun initBuf input = RunResult.exited 0 :=
  mainLoop_no_abc 1000 input initBuf hb hv hn

/-- Witness for C3: an arbitrary initial stack buffer, one two-byte read
"ab", one failing read, then end of file. -/
theorem main_no_abc_exits_normally_witness :
    mainRun (List.replicate 100 5) [ReadResult.chunk [97, 98], ReadResult.fail] =
      RunResult.exited 0 :=
  main_no_abc_exits_normally (List.replicate 100 5)
    [ReadResult.chunk [97, 98], ReadResult.fail]
    (by simp [MAX_BUF_SIZE]) (by decide) (by decide)

/-- C4: a failing `read` is indistinguishable from a zero-length read: the
iteration produces the same buffer and the same outcome, and the whole loop
continues identically from there on. -/
theorem read_error_eq_empty_read (buf : List Nat) (input : List ReadResult)
    (fuel : Nat) :
    loopBody buf ReadResult.fail = loopBody buf (ReadResult.chunk []) ∧
    mainLoop fuel (ReadResult.fail :: input) buf =
      mainLoop fuel (ReadResult.chunk [] :: input) buf := by
  have h1 : loopBody buf ReadResult.fail = loopBody buf (ReadResult.chunk []) := by
    show (memset buf 0 MAX_BUF_SIZE, check_buf (memset buf 0 MAX_BUF_SIZE) SIZE_MAX_VAL)
      = ([] ++ (memset buf 0 MAX_BUF_SIZE).drop 0,
          check_buf ([] ++ (memset buf 0 MAX_BUF_SIZE).drop 0) 0)
    rw [List.drop_zero, List.nil_append, check_buf_memset_zero, check_buf_memset_zero]
  refine ⟨h1, ?_⟩
  cases fuel with
  | zero => rfl
  | succ n => simp only [mainLoop, nextRead, h1]

/-- C5: every iteration starts by overwriting the whole 100-byte buffer with
zeros, so the iteration's behaviour is independent of whatever the buffer
held before (here: it equals the behaviour from an all-zero buffer). -/
theorem iteration_reinitializes_buffer (buf : List Nat) (r : ReadResult)
    (hb : buf.length = MAX_BUF_SIZE) :
    memset buf 0 MAX_BUF_SIZE = List.replicate MAX_BUF_SIZE 0 ∧
    loopBody buf r = loopBody (List.replicate MAX_BUF_SIZE 0) r := by
  have hm : memset buf 0 MAX_BUF_SIZE = List.replicate MAX_BUF_SIZE 0 :=
    memset_all buf 0 MAX_BUF_SIZE (le_of_eq hb)
  refine ⟨hm, ?_⟩
  simp only [loopBody]
  rw [hm, memset_all _ 0 MAX_BUF_SIZE (by simp)]

/-- Witness for C5: a buffer full of leftover bytes 7 from a previous
iteration is cleared before the read "a" is processed. -/
theorem iteration_reinitializes_buffer_witness :
    memset (List.replicate 100 7) 0 MAX_BUF_SIZE = List.replicate MAX_BUF_SIZE 0 ∧
    loopBody (List.replicate 100 7) (ReadResult.chunk [97]) =
      loopBody (List.replicate MAX_BUF_SIZE 0) (ReadResult.chunk [97]) :=
  iteration_reinitializes_buffer (List.replicate 100 7) (ReadResult.chunk [97])
    (by simp [MAX_BUF_SIZE])

/-- C6: a `read` bounded by 100 stores at most 100 bytes, and the buffer an
iteration hands to `check_buf` keeps the declared 100-byte size. -/
theorem read_bounded_by_capacity (buf : List Nat) (r : ReadResult)
    (hb : buf.length = MAX_BUF_SIZE) (hv : validRead r = true) :
    bytesStored r ≤ MAX_BUF_SIZE ∧ (loopBody buf r).1.length = MAX_BUF_SIZE := by
  constructor
  · cases r with
    | fail => simp [bytesStored]
    | chunk bs => simpa [bytesStored, validRead] using hv
  · exact loopBody_fst_length buf r hb hv

/-- Witness for C6: a three-byte read into the 100-byte buffer. -/
theorem read_bounded_by_capacity_witness :
    bytesStored (ReadResult.chunk [97, 98, 99]) ≤ MAX_BUF_SIZE ∧
    (loopBody (List.replicate 100 0) (ReadResult.chunk [97, 98, 99])).1.length =
      MAX_BUF_SIZE :=
  read_bounded_by_capacity (List.replicate 100 0) (ReadResult.chunk [97, 98, 99])
    (by simp [MAX_BUF_SIZE]) (by decide)

/-- C8: the loop executes at most the 1000-iteration persistent-mode bound,
and with standard input exhausted from the start (every read returns 0
bytes) the run ends in a normal exit with status 0. -/
theorem loop_bounded_and_eof_exits (initBuf : List Nat) (input : List ReadResult) :
    mainIters initBuf input ≤ 1000 ∧ mainRun initBuf [] = RunResult.exited 0 :=
  ⟨mainLoop_iters_le 1000 input initBuf, mainLoop_nil_exits 1000 initBuf⟩
